import Mathlib

/-!
Verification of `async-once-watch` (`src/lib.rs`): a write-once cell
`OnceWatch<T>` built from an `AtomicPtr<T>` slot and an
`event_listener::Event`.

Two models are developed, both translated from the source:

1. A per-call functional model (`OnceWatch`): `new`, `set`, `try_get`
   and `default` as pure functions on the cell state.  The `AtomicPtr`
   is `Option T` (`none` = null pointer); the `Event`'s registered
   listeners are a list of `Bool` notified-flags.  `set` mirrors the
   Rust body: compare-exchange on the slot; on success
   `notify_additional(usize::MAX)` marks every currently registered
   listener notified (per the `event_listener` crate, a notification
   reaches only listeners that already exist at notify time; it is not
   buffered for listeners created later); on failure the boxed value is
   unboxed and returned in `Err` with the cell untouched.

2. An interleaving model (`Sys`, `Step`): readers execute `get()` as
   the source writes it — create a listener, await it, load the slot,
   unwrap — as separate atomic steps; writers execute `set(v)` as a
   compare-exchange step followed (on success) by a notify step.
   `Reach` is the reflexive-transitive closure of `Step`.
-/

namespace AsyncOnceWatch

/-- Functional state of `OnceWatch<T>`: `slot` models the `AtomicPtr<T>`
(`none` = null), `notified` models the notified-flags of the listeners
currently registered with the `event_listener::Event`. -/
structure OnceWatch (T : Type) where
  slot : Option T
  notified : List Bool
deriving DecidableEq, Repr

namespace OnceWatch

/-- `OnceWatch::new()`: null slot, fresh event with no listeners. -/
def new {T : Type} : OnceWatch T :=
  { slot := none, notified := [] }

/-- `OnceWatch::set(&self, data: T)`: box the value, compare-exchange the
slot from null; on success call `event.notify_additional(usize::MAX)`
(marking all currently registered listeners notified); on failure unbox
and hand the value back in `Err`, leaving the cell untouched. -/
def set {T : Type} (c : OnceWatch T) (v : T) : Except T Unit × OnceWatch T :=
  match c.slot with
  | none => (Except.ok (), { slot := some v, notified := c.notified.map (fun _ => true) })
  | some _ => (Except.error v, c)

/-- `OnceWatch::try_get(&self)`: load the slot, return the value behind
the pointer if non-null. -/
def try_get {T : Type} (c : OnceWatch T) : Option T :=
  c.slot

/-- `impl Default for OnceWatch<T>`: `fn default() { Self::new() }`. -/
def default {T : Type} : OnceWatch T :=
  new

/-- Run a sequence of `set` calls left to right, collecting each call's
result and the final cell state. -/
def setAll {T : Type} (c : OnceWatch T) : List T → List (Except T Unit) × OnceWatch T
  | [] => ([], c)
  | v :: vs =>
    let p := set c v
    let q := setAll p.2 vs
    (p.1 :: q.1, q.2)

end OnceWatch

/-- Control state of one reader running `get()`:
`start` = about to call `get`; `waiting lid` = created listener `lid`
and awaiting it; `loading` = the await resolved, about to load the slot;
`done v` = the load returned a non-null pointer to `v` and the unwrap
succeeded; `panicked` = the load returned null and `unwrap` panicked. -/
inductive RState (T : Type) where
  | start
  | waiting (lid : Nat)
  | loading
  | done (v : T)
  | panicked
deriving DecidableEq, Repr

/-- Control state of one writer running `set(v)`:
`start v` = about to run the compare-exchange; `notifying v` = the
compare-exchange succeeded (slot published), about to call
`notify_additional(usize::MAX)`; `wdone v r` = the call returned `r`. -/
inductive WState (T : Type) where
  | start (v : T)
  | notifying (v : T)
  | wdone (v : T) (r : Except T Unit)

/-- Global state of an interleaved execution: the cell's slot, the
notified-flags of the registered listeners (index = registration
order), and the control state of each reader and writer. -/
structure Sys (T : Type) where
  slot : Option T
  listeners : List Bool
  readers : List (RState T)
  writers : List (WState T)

/-- Initial state: empty cell, no listeners, `rs` readers about to call
`get()`, one writer about to call `set v` for each `v` in `ws`. -/
def init {T : Type} (rs : Nat) (ws : List T) : Sys T :=
  { slot := none,
    listeners := [],
    readers := List.replicate rs RState.start,
    writers := ws.map WState.start }

/-- Outcome of the tail of `get()` once the await has resolved:
`self.data.load(Acquire)` followed by `ptr.as_ref().unwrap()` — a value
if the pointer is non-null, a panic if it is null. -/
def loadResult {T : Type} : Option T → RState T
  | some v => RState.done v
  | none => RState.panicked

/-- One atomic step of the interleaved execution, following the source:
a reader's `get()` is `listen`, then the await (enabled only once its
listener is notified), then the load+unwrap; a writer's `set(v)` is the
compare-exchange (succeeding exactly when the slot is null), followed on
success by `notify_additional(usize::MAX)`, which notifies every
listener registered at that moment and is not buffered for later
listeners. -/
inductive Step {T : Type} : Sys T → Sys T → Prop where
  | listen (s : Sys T) (i : Nat) (h : s.readers.get? i = some RState.start) :
      Step s { s with
        listeners := s.listeners ++ [false]
        readers := s.readers.set i (RState.waiting s.listeners.length) }
  | wake (s : Sys T) (i lid : Nat) (h : s.readers.get? i = some (RState.waiting lid))
      (hn : s.listeners.get? lid = some true) :
      Step s { s with readers := s.readers.set i RState.loading }
  | load (s : Sys T) (i : Nat) (h : s.readers.get? i = some RState.loading) :
      Step s { s with readers := s.readers.set i (loadResult s.slot) }
  | casOk (s : Sys T) (j : Nat) (v : T) (h : s.writers.get? j = some (WState.start v))
      (hs : s.slot = none) :
      Step s { s with slot := some v, writers := s.writers.set j (WState.notifying v) }
  | casFail (s : Sys T) (j : Nat) (v w : T) (h : s.writers.get? j = some (WState.start v))
      (hs : s.slot = some w) :
      Step s { s with writers := s.writers.set j (WState.wdone v (Except.error v)) }
  | notify (s : Sys T) (j : Nat) (v : T) (h : s.writers.get? j = some (WState.notifying v)) :
      Step s { s with
        listeners := s.listeners.map (fun _ => true)
        writers := s.writers.set j (WState.wdone v (Except.ok ())) }

/-- Reflexive-transitive closure of `Step`. -/
inductive Reach {T : Type} : Sys T → Sys T → Prop where
  | refl (s : Sys T) : Reach s s
  | tail {s t u : Sys T} : Reach s t → Step t u → Reach s u

/-- Writer `j` is a winner: its compare-exchange succeeded. -/
def Won {T : Type} (s : Sys T) (j : Nat) (v : T) : Prop :=
  s.writers.get? j = some (WState.notifying v) ∨
    s.writers.get? j = some (WState.wdone v (Except.ok ()))

/-- Every writer has finished its `set` call. -/
def AllWritersDone {T : Type} (s : Sys T) : Prop :=
  ∀ w ∈ s.writers, ∃ v r, w = WState.wdone v r

/-- Reader `i` is suspended on listener `lid`, that listener is not
notified, and every writer has finished: no step can ever notify the
listener again, so the reader is stuck. -/
def StuckReader {T : Type} (s : Sys T) (i lid : Nat) : Prop :=
  s.readers.get? i = some (RState.waiting lid) ∧
    s.listeners.get? lid = some false ∧ AllWritersDone s

/-- State invariant of reachable states (proved preserved by `Step`):
notifications happen only after a successful compare-exchange published
the value, the published value never changes, winners are unique, and
losers carry their own payload in their error. -/
def Inv {T : Type} (s : Sys T) : Prop :=
  (∀ lid, s.listeners.get? lid = some true → s.slot ≠ none) ∧
  (∀ j v, s.writers.get? j = some (WState.notifying v) → s.slot = some v) ∧
  (∀ j v, s.writers.get? j = some (WState.wdone v (Except.ok ())) → s.slot = some v) ∧
  (∀ i, s.readers.get? i = some RState.loading → s.slot ≠ none) ∧
  (∀ i v, s.readers.get? i = some (RState.done v) → s.slot = some v) ∧
  (∀ i, s.readers.get? i ≠ some RState.panicked) ∧
  (∀ v, s.slot = some v → ∃ j, Won s j v) ∧
  (∀ j j' u u', Won s j u → Won s j' u' → j = j') ∧
  (∀ j v u, s.writers.get? j = some (WState.wdone v (Except.error u)) → u = v ∧ s.slot ≠ none)


/-! ## List indexing helpers -/

theorem get?_set_cases {α : Type} (l : List α) (i j : Nat) (a y : α)
    (h : (l.set i a).get? j = some y) : l.get? j = some y ∨ (i = j ∧ y = a) := by
  induction l generalizing i j with
  | nil => simp [List.set] at h
  | cons x xs ih =>
    cases i with
    | zero =>
      cases j with
      | zero => simp_all [List.set]
      | succ j => simp_all [List.set]
    | succ i =>
      cases j with
      | zero => simp_all [List.set]
      | succ j =>
        simp only [List.set, List.get?] at h ⊢
        rcases ih i j h with h1 | h1
        · exact Or.inl h1
        · exact Or.inr ⟨by omega, h1.2⟩

theorem get?_set_ne {α : Type} (l : List α) (i j : Nat) (a : α) (h : i ≠ j) :
    (l.set i a).get? j = l.get? j := by
  induction l generalizing i j with
  | nil => simp [List.set]
  | cons x xs ih =>
    cases i with
    | zero => cases j with
      | zero => omega
      | succ j => simp [List.set]
    | succ i => cases j with
      | zero => simp [List.set]
      | succ j =>
        simp only [List.set, List.get?]
        exact ih i j (by omega)

theorem get?_lt {α : Type} (l : List α) (j : Nat) (y : α) (h : l.get? j = some y) :
    j < l.length := by
  induction l generalizing j with
  | nil => simp at h
  | cons x xs ih =>
    cases j with
    | zero => simp
    | succ j =>
      simp only [List.get?] at h
      have := ih j h
      simp
      omega

theorem get?_set_self {α : Type} (l : List α) (j : Nat) (a : α) (h : j < l.length) :
    (l.set j a).get? j = some a := by
  induction l generalizing j with
  | nil => simp at h
  | cons x xs ih =>
    cases j with
    | zero => simp [List.set]
    | succ j =>
      simp only [List.set, List.get?]
      exact ih j (by simp at h; omega)

theorem get?_append_one {α : Type} (l : List α) (b : α) (j : Nat) (y : α)
    (h : (l ++ [b]).get? j = some y) : l.get? j = some y ∨ y = b := by
  induction l generalizing j with
  | nil => cases j with
    | zero => simp_all
    | succ j => simp [List.get?] at h
  | cons x xs ih =>
    cases j with
    | zero => simp_all
    | succ j =>
      simp only [List.cons_append, List.get?] at h ⊢
      exact ih j h

theorem get?_append_left {α : Type} (l : List α) (b : α) (j : Nat) (y : α)
    (h : l.get? j = some y) : (l ++ [b]).get? j = some y := by
  induction l generalizing j with
  | nil => simp at h
  | cons x xs ih =>
    cases j with
    | zero => simp_all
    | succ j =>
      simp only [List.cons_append, List.get?] at h ⊢
      exact ih j h

theorem get?_replicate_eq {α : Type} (a y : α) (n m : Nat)
    (h : (List.replicate n a).get? m = some y) : y = a := by
  induction n generalizing m with
  | zero => simp [List.replicate] at h
  | succ n ih =>
    cases m with
    | zero => simp_all [List.replicate]
    | succ m =>
      simp only [List.replicate, List.get?] at h
      exact ih m h

theorem get?_map_some {α β : Type} (f : α → β) (l : List α) (j : Nat) (y : β)
    (h : (l.map f).get? j = some y) : ∃ x, l.get? j = some x ∧ y = f x := by
  induction l generalizing j with
  | nil => simp at h
  | cons x xs ih =>
    cases j with
    | zero => exact ⟨x, rfl, by simp_all⟩
    | succ j =>
      simp only [List.map, List.get?] at h ⊢
      exact ih j h

/-! ## Invariant machinery for the interleaving model -/

theorem won_set_cases {T : Type} (l : List (WState T)) (j j' : Nat) (x : WState T) (u : T)
    (h : (l.set j x).get? j' = some (WState.notifying u) ∨
      (l.set j x).get? j' = some (WState.wdone u (Except.ok ()))) :
    (l.get? j' = some (WState.notifying u) ∨
      l.get? j' = some (WState.wdone u (Except.ok ()))) ∨
    (j = j' ∧ (x = WState.notifying u ∨ x = WState.wdone u (Except.ok ()))) := by
  rcases h with h | h
  · rcases get?_set_cases _ _ _ _ _ h with h1 | ⟨h1, h2⟩
    · exact Or.inl (Or.inl h1)
    · exact Or.inr ⟨h1, Or.inl h2.symm⟩
  · rcases get?_set_cases _ _ _ _ _ h with h1 | ⟨h1, h2⟩
    · exact Or.inl (Or.inr h1)
    · exact Or.inr ⟨h1, Or.inr h2.symm⟩

theorem inv_init {T : Type} (rs : Nat) (ws : List T) : Inv (init rs ws) := by
  unfold Inv Won init
  dsimp only
  refine ⟨?_, ?_, ?_, ?_, ?_, ?_, ?_, ?_, ?_⟩
  · intro lid h; simp at h
  · intro j v h
    obtain ⟨x, hx, he⟩ := get?_map_some _ _ _ _ h
    cases he
  · intro j v h
    obtain ⟨x, hx, he⟩ := get?_map_some _ _ _ _ h
    cases he
  · intro i h
    have := get?_replicate_eq _ _ _ _ h
    cases this
  · intro i v h
    have := get?_replicate_eq _ _ _ _ h
    cases this
  · intro i h
    have := get?_replicate_eq _ _ _ _ h
    cases this
  · intro v h
    cases h
  · intro j j' u u' h1 h2
    rcases h1 with h1 | h1 <;>
      obtain ⟨x, hx, he⟩ := get?_map_some _ _ _ _ h1 <;> cases he
  · intro j v u h
    obtain ⟨x, hx, he⟩ := get?_map_some _ _ _ _ h
    cases he

theorem inv_step {T : Type} {s s' : Sys T} (hst : Step s s') (hinv : Inv s) : Inv s' := by
  obtain ⟨A1, A2, A3, A4, A5, A6, A7, A8, A9⟩ := hinv
  unfold Won at A7 A8
  cases hst with
  | listen i h =>
    unfold Inv Won
    dsimp only
    refine ⟨?_, A2, A3, ?_, ?_, ?_, A7, A8, A9⟩
    · intro lid h'
      rcases get?_append_one _ _ _ _ h' with h1 | h1
      · exact A1 lid h1
      · cases h1
    · intro i' h'
      rcases get?_set_cases _ _ _ _ _ h' with h1 | ⟨h1, h2⟩
      · exact A4 i' h1
      · cases h2
    · intro i' v h'
      rcases get?_set_cases _ _ _ _ _ h' with h1 | ⟨h1, h2⟩
      · exact A5 i' v h1
      · cases h2
    · intro i' h'
      rcases get?_set_cases _ _ _ _ _ h' with h1 | ⟨h1, h2⟩
      · exact A6 i' h1
      · cases h2
  | wake i lid h hn =>
    unfold Inv Won
    dsimp only
    refine ⟨A1, A2, A3, ?_, ?_, ?_, A7, A8, A9⟩
    · intro i' h'
      rcases get?_set_cases _ _ _ _ _ h' with h1 | ⟨h1, h2⟩
      · exact A4 i' h1
      · exact A1 lid hn
    · intro i' v h'
      rcases get?_set_cases _ _ _ _ _ h' with h1 | ⟨h1, h2⟩
      · exact A5 i' v h1
      · cases h2
    · intro i' h'
      rcases get?_set_cases _ _ _ _ _ h' with h1 | ⟨h1, h2⟩
      · exact A6 i' h1
      · cases h2
  | load i h =>
    unfold Inv Won
    dsimp only
    refine ⟨A1, A2, A3, ?_, ?_, ?_, A7, A8, A9⟩
    · intro i' h'
      rcases get?_set_cases _ _ _ _ _ h' with h1 | ⟨h1, h2⟩
      · exact A4 i' h1
      · exfalso
        rcases hslot : s.slot with _ | u
        · exact A4 i h hslot
        · rw [hslot] at h2
          simp only [loadResult] at h2
          cases h2
    · intro i' v h'
      rcases get?_set_cases _ _ _ _ _ h' with h1 | ⟨h1, h2⟩
      · exact A5 i' v h1
      · rcases hslot : s.slot with _ | u
        · exact absurd hslot (A4 i h)
        · rw [hslot] at h2
          simp only [loadResult] at h2
          cases h2
          rfl
    · intro i' h'
      rcases get?_set_cases _ _ _ _ _ h' with h1 | ⟨h1, h2⟩
      · exact A6 i' h1
      · rcases hslot : s.slot with _ | u
        · exact absurd hslot (A4 i h)
        · rw [hslot] at h2
          simp only [loadResult] at h2
          cases h2
  | casOk j v h hs =>
    unfold Inv Won
    dsimp only
    have hjlt : j < s.writers.length := get?_lt _ _ _ h
    refine ⟨?_, ?_, ?_, ?_, ?_, A6, ?_, ?_, ?_⟩
    · intro lid h'
      simp
    · intro j' u h'
      rcases get?_set_cases _ _ _ _ _ h' with h1 | ⟨h1, h2⟩
      · have hc := A2 j' u h1
        rw [hs] at hc
        cases hc
      · cases h2
        rfl
    · intro j' u h'
      rcases get?_set_cases _ _ _ _ _ h' with h1 | ⟨h1, h2⟩
      · have hc := A3 j' u h1
        rw [hs] at hc
        cases hc
      · cases h2
    · intro i' h'
      simp
    · intro i' u h'
      have hc := A5 i' u h'
      rw [hs] at hc
      cases hc
    · intro u h'
      cases h'
      exact ⟨j, Or.inl (get?_set_self _ _ _ hjlt)⟩
    · intro j1 j2 u1 u2 hw1 hw2
      have k1 : j = j1 := by
        rcases won_set_cases _ _ _ _ _ hw1 with hw | ⟨he, _⟩
        · rcases hw with hw | hw
          · have hc := A2 j1 u1 hw
            rw [hs] at hc
            cases hc
          · have hc := A3 j1 u1 hw
            rw [hs] at hc
            cases hc
        · exact he
      have k2 : j = j2 := by
        rcases won_set_cases _ _ _ _ _ hw2 with hw | ⟨he, _⟩
        · rcases hw with hw | hw
          · have hc := A2 j2 u2 hw
            rw [hs] at hc
            cases hc
          · have hc := A3 j2 u2 hw
            rw [hs] at hc
            cases hc
        · exact he
      omega
    · intro j' u' u h'
      rcases get?_set_cases _ _ _ _ _ h' with h1 | ⟨h1, h2⟩
      · exact ⟨(A9 _ _ _ h1).1, by simp⟩
      · cases h2
  | casFail j v w h hs =>
    unfold Inv Won
    dsimp only
    refine ⟨A1, ?_, ?_, A4, A5, A6, ?_, ?_, ?_⟩
    · intro j' u h'
      rcases get?_set_cases _ _ _ _ _ h' with h1 | ⟨h1, h2⟩
      · exact A2 j' u h1
      · cases h2
    · intro j' u h'
      rcases get?_set_cases _ _ _ _ _ h' with h1 | ⟨h1, h2⟩
      · exact A3 j' u h1
      · cases h2
    · intro u h'
      obtain ⟨j0, hw⟩ := A7 u h'
      have hne : j ≠ j0 := by
        intro he
        rcases hw with hw | hw <;> rw [← he, h] at hw <;> cases hw
      refine ⟨j0, ?_⟩
      rcases hw with hw | hw
      · exact Or.inl ((get?_set_ne _ _ _ _ hne).trans hw)
      · exact Or.inr ((get?_set_ne _ _ _ _ hne).trans hw)
    · intro j1 j2 u1 u2 hw1 hw2
      have k1 : s.writers.get? j1 = some (WState.notifying u1) ∨
          s.writers.get? j1 = some (WState.wdone u1 (Except.ok ())) := by
        rcases won_set_cases _ _ _ _ _ hw1 with hw | ⟨_, hx | hx⟩
        · exact hw
        · cases hx
        · cases hx
      have k2 : s.writers.get? j2 = some (WState.notifying u2) ∨
          s.writers.get? j2 = some (WState.wdone u2 (Except.ok ())) := by
        rcases won_set_cases _ _ _ _ _ hw2 with hw | ⟨_, hx | hx⟩
        · exact hw
        · cases hx
        · cases hx
      exact A8 j1 j2 u1 u2 k1 k2
    · intro j' u' u h'
      rcases get?_set_cases _ _ _ _ _ h' with h1 | ⟨h1, h2⟩
      · exact A9 _ _ _ h1
      · cases h2
        exact ⟨rfl, by rw [hs]; simp⟩
  | notify j v h =>
    unfold Inv Won
    dsimp only
    have hjlt : j < s.writers.length := get?_lt _ _ _ h
    have hslot : s.slot = some v := A2 j v h
    refine ⟨?_, ?_, ?_, ?_, A5, A6, ?_, ?_, ?_⟩
    · intro lid h'
      rw [hslot]
      simp
    · intro j' u h'
      rcases get?_set_cases _ _ _ _ _ h' with h1 | ⟨h1, h2⟩
      · exact A2 j' u h1
      · cases h2
    · intro j' u h'
      rcases get?_set_cases _ _ _ _ _ h' with h1 | ⟨h1, h2⟩
      · exact A3 j' u h1
      · cases h2
        exact hslot
    · intro i' h'
      rw [hslot]
      simp
    · intro u h'
      obtain ⟨j0, hw⟩ := A7 u h'
      by_cases he : j = j0
      · subst he
        rcases hw with hw | hw
        · rw [h] at hw
          cases hw
          exact ⟨j, Or.inr (get?_set_self _ _ _ hjlt)⟩
        · rw [h] at hw
          cases hw
      · refine ⟨j0, ?_⟩
        rcases hw with hw | hw
        · exact Or.inl ((get?_set_ne _ _ _ _ he).trans hw)
        · exact Or.inr ((get?_set_ne _ _ _ _ he).trans hw)
    · intro j1 j2 u1 u2 hw1 hw2
      have k1 : ∃ uy, s.writers.get? j1 = some (WState.notifying uy) ∨
          s.writers.get? j1 = some (WState.wdone uy (Except.ok ())) := by
        rcases won_set_cases _ _ _ _ _ hw1 with hw | ⟨he, _⟩
        · exact ⟨u1, hw⟩
        · exact ⟨v, by rw [← he]; exact Or.inl h⟩
      have k2 : ∃ uy, s.writers.get? j2 = some (WState.notifying uy) ∨
          s.writers.get? j2 = some (WState.wdone uy (Except.ok ())) := by
        rcases won_set_cases _ _ _ _ _ hw2 with hw | ⟨he, _⟩
        · exact ⟨u2, hw⟩
        · exact ⟨v, by rw [← he]; exact Or.inl h⟩
      obtain ⟨uy1, k1⟩ := k1
      obtain ⟨uy2, k2⟩ := k2
      exact A8 j1 j2 uy1 uy2 k1 k2
    · intro j' u' u h'
      rcases get?_set_cases _ _ _ _ _ h' with h1 | ⟨h1, h2⟩
      · exact A9 _ _ _ h1
      · cases h2

theorem reach_inv {T : Type} {rs : Nat} {ws : List T} {s : Sys T}
    (h : Reach (init rs ws) s) : Inv s := by
  induction h with
  | refl => exact inv_init rs ws
  | tail hr hst ih => exact inv_step hst ih

theorem slot_mono_step {T : Type} {s s' : Sys T} (hst : Step s s') (v : T)
    (h : s.slot = some v) : s'.slot = some v := by
  cases hst with
  | listen i hr => exact h
  | wake i lid hr hn => exact h
  | load i hr => exact h
  | casOk j u hw hs => rw [hs] at h; cases h
  | casFail j u w hw hs => exact h
  | notify j u hw => exact h

theorem slot_mono_reach {T : Type} {s s' : Sys T} (hr : Reach s s') (v : T)
    (h : s.slot = some v) : s'.slot = some v := by
  induction hr with
  | refl => exact h
  | tail hr hst ih => exact slot_mono_step hst v ih

theorem stuck_step {T : Type} {s s' : Sys T} {i lid : Nat} (hst : Step s s')
    (hstuck : StuckReader s i lid) : StuckReader s' i lid := by
  obtain ⟨hw, hf, hall⟩ := hstuck
  cases hst with
  | listen i' hr =>
    have hne : i' ≠ i := by
      intro he
      rw [he, hw] at hr
      cases hr
    unfold StuckReader AllWritersDone
    dsimp only
    refine ⟨?_, get?_append_left _ _ _ _ hf, hall⟩
    rw [get?_set_ne _ _ _ _ hne]
    exact hw
  | wake i' lid' hr hn =>
    have hne : i' ≠ i := by
      intro he
      rw [he, hw] at hr
      cases hr
      rw [hf] at hn
      cases hn
    unfold StuckReader AllWritersDone
    dsimp only
    refine ⟨?_, hf, hall⟩
    rw [get?_set_ne _ _ _ _ hne]
    exact hw
  | load i' hr =>
    have hne : i' ≠ i := by
      intro he
      rw [he, hw] at hr
      cases hr
    unfold StuckReader AllWritersDone
    dsimp only
    refine ⟨?_, hf, hall⟩
    rw [get?_set_ne _ _ _ _ hne]
    exact hw
  | casOk j u hj hs =>
    exfalso
    obtain ⟨v0, r0, he⟩ := hall _ (List.get?_mem hj)
    cases he
  | casFail j u w hj hs =>
    exfalso
    obtain ⟨v0, r0, he⟩ := hall _ (List.get?_mem hj)
    cases he
  | notify j u hj =>
    exfalso
    obtain ⟨v0, r0, he⟩ := hall _ (List.get?_mem hj)
    cases he

theorem stuck_reach {T : Type} {s s' : Sys T} {i lid : Nat} (hr : Reach s s')
    (hstuck : StuckReader s i lid) : StuckReader s' i lid := by
  induction hr with
  | refl => exact hstuck
  | tail hr hst ih => exact stuck_step hst ih

theorem writers_length_step {T : Type} {s s' : Sys T} (hst : Step s s') :
    s'.writers.length = s.writers.length := by
  cases hst with
  | listen i hr => rfl
  | wake i lid hr hn => rfl
  | load i hr => rfl
  | casOk j u hw hs => exact List.length_set _ _ _
  | casFail j u w hw hs => exact List.length_set _ _ _
  | notify j u hw => exact List.length_set _ _ _

theorem writers_length_reach {T : Type} {s s' : Sys T} (hr : Reach s s') :
    s'.writers.length = s.writers.length := by
  induction hr with
  | refl => rfl
  | tail hr hst ih => exact (writers_length_step hst).trans ih

theorem reach_trans {T : Type} {a b c : Sys T} (h1 : Reach a b) (h2 : Reach b c) :
    Reach a c := by
  induction h2 with
  | refl => exact h1
  | tail hr hst ih => exact Reach.tail ih hst

theorem get?_singleton {α : Type} (a y : α) (i : Nat) (h : ([a] : List α).get? i = some y) :
    i = 0 ∧ y = a := by
  cases i with
  | zero => exact ⟨rfl, (Option.some.inj h).symm⟩
  | succ i => cases h

theorem get?_zero_of_ne_nil {α : Type} (l : List α) (h : l ≠ []) :
    ∃ w, l.get? 0 = some w := by
  cases l with
  | nil => exact absurd rfl h
  | cons x xs => exact ⟨x, rfl⟩

/-! ## Facts about the functional model -/

theorem setAll_cons {T : Type} (c : OnceWatch T) (v : T) (vs : List T) :
    OnceWatch.setAll c (v :: vs) =
      ((OnceWatch.set c v).1 :: (OnceWatch.setAll (OnceWatch.set c v).2 vs).1,
        (OnceWatch.setAll (OnceWatch.set c v).2 vs).2) := rfl

theorem set_populated {T : Type} (c : OnceWatch T) (v w : T) (hc : c.slot = some w) :
    OnceWatch.set c v = (Except.error v, c) := by
  unfold OnceWatch.set
  rw [hc]

theorem setAll_populated {T : Type} (c : OnceWatch T) (w : T) (hc : c.slot = some w) :
    ∀ vs : List T, OnceWatch.setAll c vs = (vs.map Except.error, c) := by
  intro vs
  induction vs with
  | nil => rfl
  | cons v vs ih =>
    rw [setAll_cons, set_populated c v w hc]
    dsimp only
    rw [ih]
    rfl

theorem set_empty {T : Type} (c : OnceWatch T) (v : T) (hc : c.slot = none) :
    OnceWatch.set c v =
      (Except.ok (), { slot := some v, notified := c.notified.map (fun _ => true) }) := by
  unfold OnceWatch.set
  rw [hc]

/-! ## Claim theorems -/

/-- Claim C3: atomicity of a failed `set`. On an already-populated cell,
`set v` returns an error carrying exactly `v` and leaves the cell
completely untouched: the previously stored value is still returned by
`try_get`, nothing is dropped and nothing is stored. -/
theorem failed_set_returns_payload_atomically {T : Type} (c : OnceWatch T) (v w : T)
    (h : OnceWatch.try_get c = some w) :
    OnceWatch.set c v = (Except.error v, c) ∧
      OnceWatch.try_get (OnceWatch.set c v).2 = some w := by
  have h1 := set_populated c v w h
  exact ⟨h1, by rw [h1]; exact h⟩

/-- Witness for C3 at the concrete cell `⟨some 5, [true, false]⟩` and
payload `3`. -/
theorem failed_set_returns_payload_atomically_witness :
    OnceWatch.try_get (⟨some 5, [true, false]⟩ : OnceWatch Nat) = some 5 ∧
    (OnceWatch.set (⟨some 5, [true, false]⟩ : OnceWatch Nat) 3 =
        (Except.error 3, (⟨some 5, [true, false]⟩ : OnceWatch Nat)) ∧
      OnceWatch.try_get (OnceWatch.set (⟨some 5, [true, false]⟩ : OnceWatch Nat) 3).2 = some 5) :=
  ⟨rfl, failed_set_returns_payload_atomically (⟨some 5, [true, false]⟩ : OnceWatch Nat) 3 5 rfl⟩

/-- Claim C6: `try_get` never suspends (it is a total function of the
cell state); it returns `none` exactly when no successful `set` has
occurred — in particular on a fresh cell — and after the first
(successful) `set` of any sequence of `set` calls it returns that
stored value on every subsequent call, forever. -/
theorem try_get_absence_iff_no_successful_set {T : Type} (vs : List T) :
    OnceWatch.try_get (OnceWatch.new : OnceWatch T) = none ∧
    OnceWatch.try_get (OnceWatch.setAll (OnceWatch.new : OnceWatch T) vs).2 = vs.head? ∧
    (OnceWatch.try_get (OnceWatch.setAll (OnceWatch.new : OnceWatch T) vs).2 = none ↔ vs = []) := by
  cases vs with
  | nil => exact ⟨rfl, rfl, Iff.intro (fun _ => rfl) (fun _ => rfl)⟩
  | cons v vs =>
    have h2 : (OnceWatch.setAll (OnceWatch.new : OnceWatch T) (v :: vs)).2 =
        (⟨some v, []⟩ : OnceWatch T) := by
      rw [setAll_cons]
      dsimp only
      have h1 : OnceWatch.set (OnceWatch.new : OnceWatch T) v =
          (Except.ok (), (⟨some v, []⟩ : OnceWatch T)) := rfl
      rw [h1]
      rw [setAll_populated (⟨some v, []⟩ : OnceWatch T) v rfl vs]
    refine ⟨rfl, ?_, ?_⟩
    · rw [h2]
      rfl
    · rw [h2]
      simp [OnceWatch.try_get]

/-- Claim C9: a failed `set` emits no wakeup. On a populated cell,
`set v` leaves the listeners' notified-flags — indeed the whole cell —
unchanged and returns the error; moreover any `set` call that does
change the notified-flags is the single successful one. -/
theorem failed_set_no_notification {T : Type} (c : OnceWatch T) (v w : T)
    (h : c.slot = some w) :
    (OnceWatch.set c v).2.notified = c.notified ∧
    (OnceWatch.set c v).2.slot = c.slot ∧
    (OnceWatch.set c v).1 = Except.error v ∧
    (∀ (d : OnceWatch T) (u : T), (OnceWatch.set d u).2.notified ≠ d.notified →
      (OnceWatch.set d u).1 = Except.ok ()) := by
  have h1 := set_populated c v w h
  refine ⟨by rw [h1], by rw [h1], by rw [h1], ?_⟩
  intro d u hd
  rcases hs : d.slot with _ | x
  · rw [set_empty d u hs]
  · exact absurd (by rw [set_populated d u x hs]) hd

/-- Witness for C9 at the concrete cell `⟨some 1, [false, true]⟩` and
payload `9`. -/
theorem failed_set_no_notification_witness :
    (⟨some 1, [false, true]⟩ : OnceWatch Nat).slot = some 1 ∧
    ((OnceWatch.set (⟨some 1, [false, true]⟩ : OnceWatch Nat) 9).2.notified = [false, true] ∧
      (OnceWatch.set (⟨some 1, [false, true]⟩ : OnceWatch Nat) 9).1 = Except.error 9) := by
  have h := failed_set_no_notification (⟨some 1, [false, true]⟩ : OnceWatch Nat) 9 1 rfl
  exact ⟨rfl, h.1, h.2.2.1⟩

/-- Claim C10: `Default::default()` is `Self::new()` — literally the
same cell, hence observationally identical: an empty cell on which
`try_get` signals absence and the first `set` succeeds. -/
theorem default_is_new {T : Type} :
    (OnceWatch.default : OnceWatch T) = OnceWatch.new ∧
    OnceWatch.try_get (OnceWatch.default : OnceWatch T) = none ∧
    ∀ v : T, (OnceWatch.set (OnceWatch.default : OnceWatch T) v).1 = Except.ok () :=
  ⟨rfl, rfl, fun _ => rfl⟩

/-- Claim C2: write-once. In every interleaved execution from a fresh
cell: the slot, once populated, never changes again (at most one
empty-to-populated transition); at most one `set` call wins; every
failed `set` returns its own payload unchanged as its error; and once
all `set` calls have finished (and there was at least one), one of them
returned `Ok` and its payload is exactly the stored value. -/
theorem set_write_once {T : Type} (rs : Nat) (ws : List T) (s s' : Sys T)
    (h1 : Reach (init rs ws) s) (h2 : Reach s s') :
    (∀ v, s.slot = some v → s'.slot = some v) ∧
    (∀ j j' u u', Won s' j u → Won s' j' u' → j = j') ∧
    (∀ j v u, s'.writers.get? j = some (WState.wdone v (Except.error u)) → u = v) ∧
    (ws ≠ [] → AllWritersDone s' →
      ∃ j v, s'.writers.get? j = some (WState.wdone v (Except.ok ())) ∧ s'.slot = some v) := by
  obtain ⟨A1, A2, A3, A4, A5, A6, A7, A8, A9⟩ := reach_inv (reach_trans h1 h2)
  refine ⟨fun v hv => slot_mono_reach h2 v hv, A8, fun j v u hj => (A9 j v u hj).1, ?_⟩
  intro hne hall
  have hlen : s'.writers.length = ws.length := by
    rw [writers_length_reach (reach_trans h1 h2)]
    unfold init
    dsimp only
    exact List.length_map _ _
  have hpos : s'.writers ≠ [] := by
    intro hnil
    cases ws with
    | nil => exact hne rfl
    | cons a l =>
      rw [hnil] at hlen
      simp at hlen
  obtain ⟨w0, hw0⟩ := get?_zero_of_ne_nil _ hpos
  obtain ⟨v0, r0, he⟩ := hall _ (List.get?_mem hw0)
  subst he
  cases r0 with
  | ok u =>
    cases u
    exact ⟨0, v0, hw0, A3 0 v0 hw0⟩
  | error u =>
    obtain ⟨_, hsl⟩ := A9 0 v0 u hw0
    rcases hslot : s'.slot with _ | x
    · exact absurd hslot hsl
    · obtain ⟨j0, hwon⟩ := A7 x hslot
      unfold Won at hwon
      rcases hwon with hwin | hwin
      · obtain ⟨v1, r1, he1⟩ := hall _ (List.get?_mem hwin)
        cases he1
      · exact ⟨j0, x, hwin, rfl⟩

/-- Witness for C2: two writers `set 4` and `set 5` run to completion
(`4` wins the compare-exchange, `5` fails); the claim's theorem applied
to that execution. -/
theorem set_write_once_witness :
    Reach (init 0 [(4 : Nat), 5])
      (⟨some 4, [], [], [WState.wdone 4 (Except.ok ()), WState.wdone 5 (Except.error 5)]⟩ : Sys Nat) ∧
    (∀ j v u, ((⟨some 4, [], [], [WState.wdone 4 (Except.ok ()), WState.wdone 5 (Except.error 5)]⟩ : Sys Nat)).writers.get? j =
        some (WState.wdone v (Except.error u)) → u = v) ∧
    (∃ j v, ((⟨some 4, [], [], [WState.wdone 4 (Except.ok ()), WState.wdone 5 (Except.error 5)]⟩ : Sys Nat)).writers.get? j =
        some (WState.wdone v (Except.ok ())) ∧
      ((⟨some 4, [], [], [WState.wdone 4 (Except.ok ()), WState.wdone 5 (Except.error 5)]⟩ : Sys Nat)).slot = some v) := by
  have st1 : Step (init 0 [(4 : Nat), 5])
      (⟨some 4, [], [], [WState.notifying 4, WState.start 5]⟩ : Sys Nat) :=
    Step.casOk _ 0 4 rfl rfl
  have st2 : Step (⟨some 4, [], [], [WState.notifying 4, WState.start 5]⟩ : Sys Nat)
      (⟨some 4, [], [], [WState.wdone 4 (Except.ok ()), WState.start 5]⟩ : Sys Nat) :=
    Step.notify _ 0 4 rfl
  have st3 : Step (⟨some 4, [], [], [WState.wdone 4 (Except.ok ()), WState.start 5]⟩ : Sys Nat)
      (⟨some 4, [], [], [WState.wdone 4 (Except.ok ()), WState.wdone 5 (Except.error 5)]⟩ : Sys Nat) :=
    Step.casFail _ 1 5 4 rfl rfl
  have h1 : Reach (init 0 [(4 : Nat), 5])
      (⟨some 4, [], [], [WState.wdone 4 (Except.ok ()), WState.wdone 5 (Except.error 5)]⟩ : Sys Nat) :=
    Reach.tail (Reach.tail (Reach.tail (Reach.refl _) st1) st2) st3
  have h := set_write_once 0 [(4 : Nat), 5] _ _ h1 (Reach.refl _)
  refine ⟨h1, h.2.2.1, h.2.2.2 (by simp) ?_⟩
  intro w hw
  simp at hw
  rcases hw with hw | hw <;> subst hw
  · exact ⟨4, Except.ok (), rfl⟩
  · exact ⟨5, Except.error 5, rfl⟩

/-- Claim C4: `get()` never returns before the cell is populated, and
any value returned by `get()` (a reader in state `done v`) or by
`try_get()` (the current slot content) is exactly the single value
stored by the winning `set`. -/
theorem get_returns_winning_value {T : Type} (rs : Nat) (ws : List T) (s : Sys T)
    (h : Reach (init rs ws) s) :
    (∀ i v, s.readers.get? i = some (RState.done v) →
      s.slot = some v ∧ ∀ j u, Won s j u → u = v) ∧
    (∀ v, s.slot = some v → ∃ j, Won s j v) := by
  obtain ⟨A1, A2, A3, A4, A5, A6, A7, A8, A9⟩ := reach_inv h
  refine ⟨?_, A7⟩
  intro i v hd
  have hs := A5 i v hd
  refine ⟨hs, ?_⟩
  intro j u hw
  unfold Won at hw
  rcases hw with hw | hw
  · exact Option.some.inj ((A2 j u hw).symm.trans hs)
  · exact Option.some.inj ((A3 j u hw).symm.trans hs)

/-- Witness for C4: the full happy execution — a reader registers, the
writer publishes `5` and notifies, the reader wakes, loads and finishes
with `5`; the claim's theorem applied to the final state. -/
theorem get_returns_winning_value_witness :
    Reach (init 1 [(5 : Nat)])
      (⟨some 5, [true], [RState.done 5], [WState.wdone 5 (Except.ok ())]⟩ : Sys Nat) ∧
    ((⟨some 5, [true], [RState.done 5], [WState.wdone 5 (Except.ok ())]⟩ : Sys Nat)).slot = some 5 := by
  have st1 : Step (init 1 [(5 : Nat)])
      (⟨none, [false], [RState.waiting 0], [WState.start 5]⟩ : Sys Nat) :=
    Step.listen _ 0 rfl
  have st2 : Step (⟨none, [false], [RState.waiting 0], [WState.start 5]⟩ : Sys Nat)
      (⟨some 5, [false], [RState.waiting 0], [WState.notifying 5]⟩ : Sys Nat) :=
    Step.casOk _ 0 5 rfl rfl
  have st3 : Step (⟨some 5, [false], [RState.waiting 0], [WState.notifying 5]⟩ : Sys Nat)
      (⟨some 5, [true], [RState.waiting 0], [WState.wdone 5 (Except.ok ())]⟩ : Sys Nat) :=
    Step.notify _ 0 5 rfl
  have st4 : Step (⟨some 5, [true], [RState.waiting 0], [WState.wdone 5 (Except.ok ())]⟩ : Sys Nat)
      (⟨some 5, [true], [RState.loading], [WState.wdone 5 (Except.ok ())]⟩ : Sys Nat) :=
    Step.wake _ 0 0 rfl rfl
  have st5 : Step (⟨some 5, [true], [RState.loading], [WState.wdone 5 (Except.ok ())]⟩ : Sys Nat)
      (⟨some 5, [true], [RState.done 5], [WState.wdone 5 (Except.ok ())]⟩ : Sys Nat) :=
    Step.load _ 0 rfl
  have h1 : Reach (init 1 [(5 : Nat)])
      (⟨some 5, [true], [RState.done 5], [WState.wdone 5 (Except.ok ())]⟩ : Sys Nat) :=
    Reach.tail (Reach.tail (Reach.tail (Reach.tail (Reach.tail (Reach.refl _) st1) st2) st3) st4) st5
  exact ⟨h1, ((get_returns_winning_value 1 [(5 : Nat)] _ h1).1 0 5 rfl).1⟩

/-- Claim C8: in every reachable state a listener is notified only
after a successful compare-exchange has published a non-null pointer;
hence the pointer loaded by `get()` after its listener resolves is
non-null and the `unwrap` in `get()` never panics. -/
theorem get_unwrap_never_panics {T : Type} (rs : Nat) (ws : List T) (s : Sys T)
    (h : Reach (init rs ws) s) :
    (∀ lid, s.listeners.get? lid = some true → s.slot ≠ none) ∧
    (∀ i, s.readers.get? i = some RState.loading → s.slot ≠ none) ∧
    (∀ i, s.readers.get? i ≠ some RState.panicked) := by
  obtain ⟨A1, A2, A3, A4, A5, A6, A7, A8, A9⟩ := reach_inv h
  exact ⟨A1, A4, A6⟩

/-- Witness for C8: the same kind of full execution with value `2`; no
reader ever panics in its final state. -/
theorem get_unwrap_never_panics_witness :
    Reach (init 1 [(2 : Nat)])
      (⟨some 2, [true], [RState.done 2], [WState.wdone 2 (Except.ok ())]⟩ : Sys Nat) ∧
    (∀ i, ((⟨some 2, [true], [RState.done 2], [WState.wdone 2 (Except.ok ())]⟩ : Sys Nat)).readers.get? i ≠
      some RState.panicked) := by
  have st1 : Step (init 1 [(2 : Nat)])
      (⟨none, [false], [RState.waiting 0], [WState.start 2]⟩ : Sys Nat) :=
    Step.listen _ 0 rfl
  have st2 : Step (⟨none, [false], [RState.waiting 0], [WState.start 2]⟩ : Sys Nat)
      (⟨some 2, [false], [RState.waiting 0], [WState.notifying 2]⟩ : Sys Nat) :=
    Step.casOk _ 0 2 rfl rfl
  have st3 : Step (⟨some 2, [false], [RState.waiting 0], [WState.notifying 2]⟩ : Sys Nat)
      (⟨some 2, [true], [RState.waiting 0], [WState.wdone 2 (Except.ok ())]⟩ : Sys Nat) :=
    Step.notify _ 0 2 rfl
  have st4 : Step (⟨some 2, [true], [RState.waiting 0], [WState.wdone 2 (Except.ok ())]⟩ : Sys Nat)
      (⟨some 2, [true], [RState.loading], [WState.wdone 2 (Except.ok ())]⟩ : Sys Nat) :=
    Step.wake _ 0 0 rfl rfl
  have st5 : Step (⟨some 2, [true], [RState.loading], [WState.wdone 2 (Except.ok ())]⟩ : Sys Nat)
      (⟨some 2, [true], [RState.done 2], [WState.wdone 2 (Except.ok ())]⟩ : Sys Nat) :=
    Step.load _ 0 rfl
  have h1 : Reach (init 1 [(2 : Nat)])
      (⟨some 2, [true], [RState.done 2], [WState.wdone 2 (Except.ok ())]⟩ : Sys Nat) :=
    Reach.tail (Reach.tail (Reach.tail (Reach.tail (Reach.tail (Reach.refl _) st1) st2) st3) st4) st5
  exact ⟨h1, (get_unwrap_never_panics 1 [(2 : Nat)] _ h1).2.2⟩

theorem reach_from_semistuck {T : Type} {s0 s1 : Sys T} {i lid : Nat}
    (hone : ∀ s', Step s0 s' → s' = s1) (hstuck1 : StuckReader s1 i lid) :
    ∀ s, Reach s0 s → s = s0 ∨ StuckReader s i lid := by
  intro s hr
  induction hr with
  | refl => exact Or.inl rfl
  | tail hr hst ih =>
    rcases ih with he | hstuck
    · subst he
      rw [hone _ hst]
      exact Or.inr hstuck1
    · exact Or.inr (stuck_step hst hstuck)

/-- Claim C1 (no lost wakeup) fails on the code: after `set 7` has
completed on a fresh cell, a reader that then begins `get()` registers
its listener only after the single `notify_additional(usize::MAX)` call
already happened; the listener is never notified, the await never
resolves, and the reader never observes the stored value — it is
suspended forever on an already-populated cell.  (The spec's
register-before-check protocol is absent from `get()`, which awaits the
listener unconditionally.) -/
theorem reader_after_set_never_woken :
    Reach (init 1 [(7 : Nat)])
      (⟨some 7, [false], [RState.waiting 0], [WState.wdone 7 (Except.ok ())]⟩ : Sys Nat) ∧
    ((⟨some 7, [false], [RState.waiting 0], [WState.wdone 7 (Except.ok ())]⟩ : Sys Nat)).slot = some 7 ∧
    (∀ s, Reach (⟨some 7, [false], [RState.waiting 0], [WState.wdone 7 (Except.ok ())]⟩ : Sys Nat) s →
      ∀ v : Nat, s.readers.get? 0 ≠ some (RState.done v)) := by
  have st1 : Step (init 1 [(7 : Nat)])
      (⟨some 7, [], [RState.start], [WState.notifying 7]⟩ : Sys Nat) :=
    Step.casOk _ 0 7 rfl rfl
  have st2 : Step (⟨some 7, [], [RState.start], [WState.notifying 7]⟩ : Sys Nat)
      (⟨some 7, [], [RState.start], [WState.wdone 7 (Except.ok ())]⟩ : Sys Nat) :=
    Step.notify _ 0 7 rfl
  have st3 : Step (⟨some 7, [], [RState.start], [WState.wdone 7 (Except.ok ())]⟩ : Sys Nat)
      (⟨some 7, [false], [RState.waiting 0], [WState.wdone 7 (Except.ok ())]⟩ : Sys Nat) :=
    Step.listen _ 0 rfl
  refine ⟨Reach.tail (Reach.tail (Reach.tail (Reach.refl _) st1) st2) st3, rfl, ?_⟩
  intro s hr v hd
  have hstuck : StuckReader
      (⟨some 7, [false], [RState.waiting 0], [WState.wdone 7 (Except.ok ())]⟩ : Sys Nat) 0 0 := by
    refine ⟨rfl, rfl, ?_⟩
    intro w hw
    simp at hw
    exact ⟨7, Except.ok (), hw⟩
  have hwait := (stuck_reach hr hstuck).1
  rw [hd] at hwait
  cases hwait

/-- Claim C5 (fast path on a populated cell) fails on the code: with the
value `3` already present at the moment `get()` is called, the reader's
`get()` does suspend — its only possible move is to register a listener
that is already past the one notification, after which it waits forever
and never completes. -/
theorem get_on_populated_cell_suspends :
    Reach (init 1 [(3 : Nat)])
      (⟨some 3, [], [RState.start], [WState.wdone 3 (Except.ok ())]⟩ : Sys Nat) ∧
    ((⟨some 3, [], [RState.start], [WState.wdone 3 (Except.ok ())]⟩ : Sys Nat)).slot = some 3 ∧
    ((⟨some 3, [], [RState.start], [WState.wdone 3 (Except.ok ())]⟩ : Sys Nat)).readers.get? 0 =
      some RState.start ∧
    (∀ s, Reach (⟨some 3, [], [RState.start], [WState.wdone 3 (Except.ok ())]⟩ : Sys Nat) s →
      ∀ v : Nat, s.readers.get? 0 ≠ some (RState.done v)) := by
  have st1 : Step (init 1 [(3 : Nat)])
      (⟨some 3, [], [RState.start], [WState.notifying 3]⟩ : Sys Nat) :=
    Step.casOk _ 0 3 rfl rfl
  have st2 : Step (⟨some 3, [], [RState.start], [WState.notifying 3]⟩ : Sys Nat)
      (⟨some 3, [], [RState.start], [WState.wdone 3 (Except.ok ())]⟩ : Sys Nat) :=
    Step.notify _ 0 3 rfl
  refine ⟨Reach.tail (Reach.tail (Reach.refl _) st1) st2, rfl, rfl, ?_⟩
  have hone : ∀ s' : Sys Nat,
      Step (⟨some 3, [], [RState.start], [WState.wdone 3 (Except.ok ())]⟩ : Sys Nat) s' →
      s' = (⟨some 3, [false], [RState.waiting 0], [WState.wdone 3 (Except.ok ())]⟩ : Sys Nat) := by
    intro s' hst
    cases hst with
    | listen i h =>
      obtain ⟨hi, _⟩ := get?_singleton _ _ _ h
      subst hi
      rfl
    | wake i lid h hn =>
      obtain ⟨_, hy⟩ := get?_singleton _ _ _ h
      cases hy
    | load i h =>
      obtain ⟨_, hy⟩ := get?_singleton _ _ _ h
      cases hy
    | casOk j v h hs =>
      obtain ⟨_, hy⟩ := get?_singleton _ _ _ h
      cases hy
    | casFail j v w h hs =>
      obtain ⟨_, hy⟩ := get?_singleton _ _ _ h
      cases hy
    | notify j v h =>
      obtain ⟨_, hy⟩ := get?_singleton _ _ _ h
      cases hy
  have hstuck1 : StuckReader
      (⟨some 3, [false], [RState.waiting 0], [WState.wdone 3 (Except.ok ())]⟩ : Sys Nat) 0 0 := by
    refine ⟨rfl, rfl, ?_⟩
    intro w hw
    simp at hw
    exact ⟨3, Except.ok (), hw⟩
  intro s hr v hd
  rcases reach_from_semistuck hone hstuck1 s hr with he | hstuck
  · subst he
    cases hd
  · have hwait := hstuck.1
    rw [hd] at hwait
    cases hwait

/-- Claim C7 (read-side idempotence) fails on the code: after a first
reader's `get()` returned the stored value `9`, a second `get()` call on
the same (still-populated) cell registers a fresh listener, which the
already-spent notification never reaches; the repeated `get()` never
yields the value. -/
theorem repeated_get_after_population_never_returns :
    Reach (init 2 [(9 : Nat)])
      (⟨some 9, [true, false], [RState.done 9, RState.waiting 1],
        [WState.wdone 9 (Except.ok ())]⟩ : Sys Nat) ∧
    ((⟨some 9, [true, false], [RState.done 9, RState.waiting 1],
        [WState.wdone 9 (Except.ok ())]⟩ : Sys Nat)).readers.get? 0 = some (RState.done 9) ∧
    (∀ s, Reach (⟨some 9, [true, false], [RState.done 9, RState.waiting 1],
        [WState.wdone 9 (Except.ok ())]⟩ : Sys Nat) s →
      ∀ v : Nat, s.readers.get? 1 ≠ some (RState.done v)) := by
  have st1 : Step (init 2 [(9 : Nat)])
      (⟨none, [false], [RState.waiting 0, RState.start], [WState.start 9]⟩ : Sys Nat) :=
    Step.listen _ 0 rfl
  have st2 : Step (⟨none, [false], [RState.waiting 0, RState.start], [WState.start 9]⟩ : Sys Nat)
      (⟨some 9, [false], [RState.waiting 0, RState.start], [WState.notifying 9]⟩ : Sys Nat) :=
    Step.casOk _ 0 9 rfl rfl
  have st3 : Step (⟨some 9, [false], [RState.waiting 0, RState.start], [WState.notifying 9]⟩ : Sys Nat)
      (⟨some 9, [true], [RState.waiting 0, RState.start], [WState.wdone 9 (Except.ok ())]⟩ : Sys Nat) :=
    Step.notify _ 0 9 rfl
  have st4 : Step (⟨some 9, [true], [RState.waiting 0, RState.start], [WState.wdone 9 (Except.ok ())]⟩ : Sys Nat)
      (⟨some 9, [true], [RState.loading, RState.start], [WState.wdone 9 (Except.ok ())]⟩ : Sys Nat) :=
    Step.wake _ 0 0 rfl rfl
  have st5 : Step (⟨some 9, [true], [RState.loading, RState.start], [WState.wdone 9 (Except.ok ())]⟩ : Sys Nat)
      (⟨some 9, [true], [RState.done 9, RState.start], [WState.wdone 9 (Except.ok ())]⟩ : Sys Nat) :=
    Step.load _ 0 rfl
  have st6 : Step (⟨some 9, [true], [RState.done 9, RState.start], [WState.wdone 9 (Except.ok ())]⟩ : Sys Nat)
      (⟨some 9, [true, false], [RState.done 9, RState.waiting 1],
        [WState.wdone 9 (Except.ok ())]⟩ : Sys Nat) :=
    Step.listen _ 1 rfl
  refine ⟨Reach.tail (Reach.tail (Reach.tail (Reach.tail (Reach.tail (Reach.tail
    (Reach.refl _) st1) st2) st3) st4) st5) st6, rfl, ?_⟩
  intro s hr v hd
  have hstuck : StuckReader
      (⟨some 9, [true, false], [RState.done 9, RState.waiting 1],
        [WState.wdone 9 (Except.ok ())]⟩ : Sys Nat) 1 1 := by
    refine ⟨rfl, rfl, ?_⟩
    intro w hw
    simp at hw
    exact ⟨9, Except.ok (), hw⟩
  have hwait := (stuck_reach hr hstuck).1
  rw [hd] at hwait
  cases hwait

end AsyncOnceWatch
